import Mathlib

/-!
Verification of the Simple Test Framework (stf.cpp / stf.h).

This file gives a shallow embedding of the framework's assertion functions
(AssertMemoryEqual, AssertMemoryNotEqual, AssertClose, the two AssertException
forms), the registration function RegisterTest, the duration formatter
FriendlyDuration, and the supervised runner loop of main(), and proves the
specified properties about them.

Modelling conventions:
  - A block of memory is a function from octet index to byte value; a pointer
    plus a length is such a function plus a Nat.
  - A zero-argument callable checked for exceptions is represented by its
    outcome: none (returned normally) or some c (raised an exception whose
    dynamic type is c); C++ catch-clause matching for a typed handler is
    parametrised by a decidable ancestor relation on exception types.
  - Floating-point values are idealised as exact rationals; the three
    AssertClose overloads (float / double / long double) all compute
    fabs(lhs - rhs) < epsilon, embedded once over the rationals.
  - Wall-clock time is abstracted: whether a test's worker completes before
    the controller's timed wait expires is an oracle bit on the test, as is
    whether executing the body leaves the shared Test_Failed flag set.
  - The runner's observable behaviour is a list of events (its output lines
    and the fact of a test body being invoked) plus a process exit code
    (0 for EXIT_SUCCESS, 1 for EXIT_FAILURE).
-/

namespace STF

/-- Byte-scan loop of AssertMemoryEqual (stf.cpp lines 775-782): compare
`left[i]` and `right[i]` for `rem` remaining octets starting at index `i`,
setting `equal = false` and breaking at the first mismatch.  The returned
boolean is the final value of `equal`. -/
def memEqScan (left right : Nat → Nat) (i : Nat) : Nat → Bool
  | 0 => true
  | rem + 1 => if left i ≠ right i then false else memEqScan left right (i + 1) rem

/-- AssertMemoryEqual (stf.cpp lines 762-793): true exactly when the scan over
`length` octets finds no mismatch (the failure branch additionally prints hex
dumps, which does not affect the returned value). -/
def AssertMemoryEqual (expected actual : Nat → Nat) (length : Nat) : Bool :=
  memEqScan expected actual 0 length

/-- Byte-scan loop of AssertMemoryNotEqual (stf.cpp lines 837-844); the C++
function duplicates the comparison loop of AssertMemoryEqual rather than
calling it, so the loop is embedded separately here as well. -/
def memNeqScan (left right : Nat → Nat) (i : Nat) : Nat → Bool
  | 0 => true
  | rem + 1 => if left i ≠ right i then false else memNeqScan left right (i + 1) rem

/-- AssertMemoryNotEqual (stf.cpp lines 824-855): after the scan computes
`equal`, the function returns true exactly when `equal` is false. -/
def AssertMemoryNotEqual (lhs rhs : Nat → Nat) (length : Nat) : Bool :=
  !(memNeqScan lhs rhs 0 length)

/-- AssertClose (stf.cpp lines 628-641, 673-686, 718-731): all three
precision overloads return whether fabs(lhs - rhs) < epsilon, here embedded
over exact rationals. -/
def AssertClose (lhs rhs epsilon : ℚ) : Bool :=
  decide (|lhs - rhs| < epsilon)

/-- Dynamic type of a thrown C++ exception, identified abstractly. -/
abbrev ExnCls := Nat

/-- AssertException, any-exception form (stf.cpp lines 881-898): invoking the
callable inside try; catch (...) returns true; falling through prints the
failure diagnostic and returns false.  The callable is represented by its
outcome. -/
def AssertException (outcome : Option ExnCls) : Bool :=
  match outcome with
  | some _ => true
  | none => false

/-- Whether a C++ handler `catch (const T &)` catches an exception of dynamic
type `c`: it does when `c` is `T` itself or `T` is an ancestor (accessible
base) of `c`; the ancestor relation of the class hierarchy is a parameter. -/
def catchMatches (ancestor : ExnCls → ExnCls → Bool) (T c : ExnCls) : Bool :=
  c == T || ancestor T c

/-- AssertException, typed form (stf.h lines 1055-1096): runs the callable
under `catch (const T &)` then `catch (...)`, recording the flags
(exception_thrown, expected_exception); on a non-expected outcome it prints
one of two distinct "actual" messages and returns false.  The result is the
returned boolean paired with the "actual" message printed on failure. -/
def AssertExceptionT (ancestor : ExnCls → ExnCls → Bool) (T : ExnCls)
    (outcome : Option ExnCls) : Bool × Option String :=
  let flags : Bool × Bool :=
    match outcome with
    | none => (false, false)
    | some c => if catchMatches ancestor T c then (true, true) else (true, false)
  if flags.2 then
    (true, none)
  else
    (false,
      some (if flags.1 then "some other exception thrown" else "no exception thrown"))

/-- The registry state touched by RegisterTest (stf.cpp lines 48-68): the
lazily allocated vector of registered tests (none models a null unique_ptr)
and the failed_registrations counter.  A registered test is its name, an
abstract body identifier, and its timeout in seconds. -/
structure RegState where
  unit_tests : Option (List (String × Nat × Nat))
  failed_registrations : Nat

/-- RegisterTest (stf.cpp lines 207-226): allocate the vector if needed,
append (name, test, timeout), and return the vector's new size as the test's
identifier; if the allocation or append raises (modelled by `allocOk = false`)
the error is swallowed, failed_registrations is incremented, and the sentinel
identifier 0 is returned. -/
def RegisterTest (st : RegState) (name : String) (test : Nat) (timeout : Nat)
    (allocOk : Bool) : RegState × Nat :=
  if allocOk then
    let tests :=
      match st.unit_tests with
      | none => []
      | some l => l
    let tests2 := tests ++ [(name, test, timeout)]
    ({ st with unit_tests := some tests2 }, tests2.length)
  else
    ({ st with failed_registrations := st.failed_registrations + 1 }, 0)

/-- Display unit chosen by FriendlyDuration. -/
inductive DurUnit where
  | seconds
  | milliseconds
  | microseconds
deriving DecidableEq

/-- FriendlyDuration (stf.cpp lines 145-178) on a duration of `ns`
nanoseconds: pick seconds when the duration is at least one second, else
milliseconds when at least one millisecond, else microseconds; the displayed
number is count-in-the-next-finer-unit divided by 1000.0, returned here as an
exact value in thousandths of the chosen unit. -/
def FriendlyDuration (ns : Nat) : DurUnit × Nat :=
  if 1000000000 ≤ ns then
    (DurUnit.seconds, ns / 1000000)
  else if 1000000 ≤ ns then
    (DurUnit.milliseconds, ns / 1000)
  else
    (DurUnit.microseconds, ns)

/-- The number FriendlyDuration would display, in thousandths of unit `u`,
for a duration of `ns` nanoseconds (duration_cast truncation included). -/
def displayedThousandths (u : DurUnit) (ns : Nat) : Nat :=
  match u with
  | DurUnit.seconds => ns / 1000000
  | DurUnit.milliseconds => ns / 1000
  | DurUnit.microseconds => ns

/-- Strict coarseness order on display units: seconds over milliseconds over
microseconds. -/
def coarser (a b : DurUnit) : Bool :=
  match a, b with
  | DurUnit.seconds, DurUnit.milliseconds => true
  | DurUnit.seconds, DurUnit.microseconds => true
  | DurUnit.milliseconds, DurUnit.microseconds => true
  | _, _ => false

/-- A registered test as the runner sees it (stf.cpp lines 54-56), together
with the two oracle bits abstracting real time and the test body's effect:
`timesOut` is true when the controller's timed wait expires before the worker
signals, and `setsFailure` is true when executing the body (including the
worker's conversion of escaping exceptions) leaves Test_Failed set. -/
structure TestSpec where
  name : String
  timeout : Nat
  timesOut : Bool
  setsFailure : Bool
deriving DecidableEq

/-- Observable events of a run: output lines of main() plus the fact of a
test body being invoked on the worker thread. -/
inductive Event where
  | noTestsError
  | regFailError (n : Nat)
  | totalCount (n : Nat)
  | excludedNotice (name : String)
  | runningNotice (name : String)
  | bodyInvoked (name : String)
  | timeoutNotice (name : String) (timeout : Nat)
  | durationNotice (name : String)
  | summaryNotice
deriving DecidableEq

/-- Linear scan of the exclusion vector (stf.cpp lines 966-974): the test is
excluded when some recorded exclusion compares equal (exact, case-sensitive
std::string equality) to the test's name. -/
def scanExclusions : List String → String → Bool
  | [], _ => false
  | e :: rest, name => if e == name then true else scanExclusions rest name

/-- The exclusion check of the runner (stf.cpp lines 961-982): skipped
entirely when the exclusions pointer is null. -/
def isExcluded (exclusions : Option (List String)) (name : String) : Bool :=
  match exclusions with
  | none => false
  | some l => scanExclusions l name

/-- The per-test loop of main() (stf.cpp lines 947-1060), with `tfail` the
current value of Test_Failed.  Per test: if excluded, print the notice and
continue; otherwise print the running line and invoke the body on the worker.
If the wait expires, print the timeout diagnostic naming the test and its
timeout and std::exit(EXIT_FAILURE).  Otherwise join, and if Test_Failed is
set return EXIT_FAILURE at once (before any duration is printed); else print
the duration and continue.  Falling off the loop prints the aggregate summary
and returns EXIT_SUCCESS. -/
def runLoop (exclusions : Option (List String)) (tfail : Bool) :
    List TestSpec → List Event × Nat
  | [] => ([Event.summaryNotice], 0)
  | t :: rest =>
    if isExcluded exclusions t.name then
      let r := runLoop exclusions tfail rest
      (Event.excludedNotice t.name :: r.1, r.2)
    else if t.timesOut then
      ([Event.runningNotice t.name, Event.bodyInvoked t.name,
        Event.timeoutNotice t.name t.timeout], 1)
    else if tfail || t.setsFailure then
      ([Event.runningNotice t.name, Event.bodyInvoked t.name], 1)
    else
      let r := runLoop exclusions (tfail || t.setsFailure) rest
      (Event.runningNotice t.name :: Event.bodyInvoked t.name ::
        Event.durationNotice t.name :: r.1, r.2)

/-- main() (stf.cpp lines 917-1079): fail before running anything when the
test vector is null or empty, or when failed_registrations is non-zero;
otherwise print the total count and run the loop with Test_Failed initially
false. -/
def mainRun (unit_tests : Option (List TestSpec))
    (exclusions : Option (List String)) (failed_registrations : Nat) :
    List Event × Nat :=
  match unit_tests with
  | none => ([Event.noTestsError], 1)
  | some [] => ([Event.noTestsError], 1)
  | some (t :: rest) =>
    if failed_registrations ≠ 0 then
      ([Event.regFailError failed_registrations], 1)
    else
      let r := runLoop exclusions false (t :: rest)
      (Event.totalCount (t :: rest).length :: r.1, r.2)

/-- Events a single test contributes when the run continues past it:
the exclusion notice alone when excluded, else the running line, the body
invocation, and the duration line. -/
def stepEvents (exclusions : Option (List String)) (t : TestSpec) :
    List Event :=
  if isExcluded exclusions t.name then
    [Event.excludedNotice t.name]
  else
    [Event.runningNotice t.name, Event.bodyInvoked t.name,
      Event.durationNotice t.name]

/-- A test past which the run continues: excluded, or neither timing out nor
leaving Test_Failed set. -/
def continues (exclusions : Option (List String)) (t : TestSpec) : Bool :=
  isExcluded exclusions t.name || (!t.timesOut && !t.setsFailure)

/-- The scan of AssertMemoryEqual succeeds exactly when every scanned octet
pair agrees. -/
theorem memEqScan_eq_true_iff (l r : Nat → Nat) :
    ∀ (n i : Nat), memEqScan l r i n = true ↔ ∀ k, k < n → l (i + k) = r (i + k) := by
  intro n
  induction n with
  | zero =>
    intro i
    simp [memEqScan]
  | succ m ih =>
    intro i
    by_cases h : l i = r i
    · rw [show memEqScan l r i (m + 1) = memEqScan l r (i + 1) m from by
        simp [memEqScan, h]]
      rw [ih (i + 1)]
      constructor
      · intro hall k hk
        cases k with
        | zero => simpa using h
        | succ k' =>
          have h2 := hall k' (by omega)
          have h3 : i + 1 + k' = i + (k' + 1) := by omega
          rwa [h3] at h2
      · intro hall k hk
        have h3 : i + 1 + k = i + (k + 1) := by omega
        rw [h3]
        exact hall (k + 1) (by omega)
    · rw [show memEqScan l r i (m + 1) = false from by simp [memEqScan, h]]
      simp only [Bool.false_eq_true, false_iff, not_forall]
      exact ⟨0, by omega, by simpa using h⟩

/-- The two C++ functions duplicate the same scan, so the loops agree. -/
theorem memNeqScan_eq_memEqScan (l r : Nat → Nat) :
    ∀ (n i : Nat), memNeqScan l r i n = memEqScan l r i n := by
  intro n
  induction n with
  | zero => intro i; rfl
  | succ m ih =>
    intro i
    by_cases h : l i = r i
    · simp [memNeqScan, memEqScan, h, ih (i + 1)]
    · simp [memNeqScan, memEqScan, h]

/-- Characterisation of AssertMemoryEqual. -/
theorem assertMemoryEqual_iff (e a : Nat → Nat) (n : Nat) :
    AssertMemoryEqual e a n = true ↔ ∀ i, i < n → e i = a i := by
  unfold AssertMemoryEqual
  rw [memEqScan_eq_true_iff]
  simp

/-- Characterisation of AssertMemoryNotEqual. -/
theorem assertMemoryNotEqual_iff (e a : Nat → Nat) (n : Nat) :
    AssertMemoryNotEqual e a n = true ↔ ∃ i, i < n ∧ e i ≠ a i := by
  unfold AssertMemoryNotEqual
  rw [memNeqScan_eq_memEqScan]
  have hscan := memEqScan_eq_true_iff e a n 0
  simp only [Nat.zero_add] at hscan
  constructor
  · intro h
    by_contra hc
    push_neg at hc
    have ht : memEqScan e a 0 n = true := hscan.mpr (fun k hk => hc k hk)
    rw [ht] at h
    simp at h
  · rintro ⟨i, hi, hne⟩
    cases hb : memEqScan e a 0 n with
    | false => simp [hb]
    | true => exact absurd (hscan.mp hb i hi) hne

/-- C3: for byte ranges of length n, AssertMemoryEqual succeeds exactly when
all n corresponding octets agree and AssertMemoryNotEqual succeeds exactly
when some octet differs; a single-octet difference makes equality fail and
inequality succeed, identical ranges make equality succeed and inequality
fail, and a zero-length range makes equality trivially succeed. -/
theorem claim3_memory_assertions (e a : Nat → Nat) (n : Nat) :
    (AssertMemoryEqual e a n = true ↔ ∀ i, i < n → e i = a i)
    ∧ (AssertMemoryNotEqual e a n = true ↔ ∃ i, i < n ∧ e i ≠ a i)
    ∧ ((∃ i, i < n ∧ e i ≠ a i ∧ ∀ j, j < n → j ≠ i → e j = a j) →
        AssertMemoryEqual e a n = false ∧ AssertMemoryNotEqual e a n = true)
    ∧ (AssertMemoryEqual e e n = true ∧ AssertMemoryNotEqual e e n = false)
    ∧ AssertMemoryEqual e a 0 = true := by
  refine ⟨assertMemoryEqual_iff e a n, assertMemoryNotEqual_iff e a n, ?_, ⟨?_, ?_⟩, ?_⟩
  · rintro ⟨i, hi, hne, _⟩
    constructor
    · cases hb : AssertMemoryEqual e a n with
      | false => rfl
      | true => exact absurd ((assertMemoryEqual_iff e a n).mp hb i hi) hne
    · exact (assertMemoryNotEqual_iff e a n).mpr ⟨i, hi, hne⟩
  · exact (assertMemoryEqual_iff e e n).mpr (fun i _ => rfl)
  · cases hb : AssertMemoryNotEqual e e n with
    | false => rfl
    | true =>
      obtain ⟨i, _, hne⟩ := (assertMemoryNotEqual_iff e e n).mp hb
      exact absurd rfl hne
  · exact (assertMemoryEqual_iff e a 0).mpr (fun i hi => absurd hi (by omega))

/-- C3 witness: concrete ranges of length 3 differing exactly at index 1. -/
theorem claim3_memory_assertions_witness :
    AssertMemoryEqual (fun _ => 0) (fun k => if k = 1 then 1 else 0) 3 = false
    ∧ AssertMemoryNotEqual (fun _ => 0) (fun k => if k = 1 then 1 else 0) 3 = true :=
  (claim3_memory_assertions (fun _ => 0) (fun k => if k = 1 then 1 else 0) 3).2.2.1
    ⟨1, by omega, by simp, fun j _ hj => by simp [hj]⟩

/-- C10: AssertMemoryNotEqual's result is the boolean negation of
AssertMemoryEqual's on the same arguments, so on a zero-length range the
inequality assertion fails while the equality assertion succeeds. -/
theorem claim10_memory_negation (l r : Nat → Nat) (n : Nat) :
    AssertMemoryNotEqual l r n = !(AssertMemoryEqual l r n)
    ∧ AssertMemoryNotEqual l r 0 = false
    ∧ AssertMemoryEqual l r 0 = true := by
  refine ⟨?_, rfl, rfl⟩
  unfold AssertMemoryNotEqual AssertMemoryEqual
  rw [memNeqScan_eq_memEqScan]

/-- C10 witness: the negation relation evaluated on concrete ranges. -/
theorem claim10_memory_negation_witness :
    AssertMemoryNotEqual (fun k => k) (fun k => k + 1) 2
      = !(AssertMemoryEqual (fun k => k) (fun k => k + 1) 2) :=
  (claim10_memory_negation (fun k => k) (fun k => k + 1) 2).1

/-- C5: AssertClose succeeds exactly when the absolute difference is
strictly below epsilon, and the two specified concrete instances behave as
stated. -/
theorem claim5_assert_close (l r e : ℚ) :
    (AssertClose l r e = true ↔ |l - r| < e)
    ∧ AssertClose (10000001 / 100000) (10000002 / 100000) (1 / 10000) = true
    ∧ AssertClose 1 2 (1 / 10) = false := by
  refine ⟨by simp [AssertClose], ?_, ?_⟩
  · simp only [AssertClose, decide_eq_true_eq]
    rw [show (10000001 / 100000 : ℚ) - 10000002 / 100000 = -(1 / 100000) by norm_num]
    rw [abs_neg, abs_of_pos (by norm_num)]
    norm_num
  · simp only [AssertClose, decide_eq_false_iff_not, not_lt]
    rw [show (1 : ℚ) - 2 = -1 by norm_num, abs_neg, abs_one]
    norm_num

/-- C5 witness: the failing concrete instance extracted from the theorem. -/
theorem claim5_assert_close_witness : AssertClose 1 2 (1 / 10) = false :=
  (claim5_assert_close 1 2 (1 / 10)).2.2

/-- A typed handler catches an exception exactly when the dynamic type is T
itself or T is an ancestor of it. -/
theorem catchMatches_iff (anc : ExnCls → ExnCls → Bool) (T c : ExnCls) :
    catchMatches anc T c = true ↔ c = T ∨ anc T c = true := by
  simp [catchMatches]

/-- C4: the any-exception form succeeds exactly when the callable raises
some exception; the typed form succeeds exactly when the raised exception is
of type T or of a type with ancestor T, and on failure it reports the two
distinct messages for a wrong exception versus no exception. -/
theorem claim4_assert_exception (anc : ExnCls → ExnCls → Bool) (T : ExnCls)
    (outcome : Option ExnCls) :
    (AssertException outcome = true ↔ ∃ c, outcome = some c)
    ∧ ((AssertExceptionT anc T outcome).1 = true ↔
        ∃ c, outcome = some c ∧ (c = T ∨ anc T c = true))
    ∧ (∀ c, outcome = some c → catchMatches anc T c = false →
        (AssertExceptionT anc T outcome).2 = some "some other exception thrown")
    ∧ (outcome = none →
        (AssertExceptionT anc T outcome).2 = some "no exception thrown")
    ∧ "some other exception thrown" ≠ "no exception thrown" := by
  refine ⟨?_, ?_, ?_, ?_, by decide⟩
  · cases outcome <;> simp [AssertException]
  · cases outcome with
    | none => simp [AssertExceptionT]
    | some c =>
      by_cases h : catchMatches anc T c = true
      · rw [catchMatches_iff] at h
        simp [AssertExceptionT, catchMatches_iff, h]
      · rw [Bool.not_eq_true] at h
        simp only [AssertExceptionT, h, Bool.false_eq_true, if_false]
        simp only [Bool.false_eq_true, false_iff, not_exists]
        rintro x ⟨hx, hor⟩
        obtain rfl : c = x := by injection hx
        rw [← catchMatches_iff anc T c] at hor
        rw [h] at hor
        exact Bool.false_ne_true hor
  · intro c hc h
    subst hc
    simp [AssertExceptionT, h]
  · intro h
    subst h
    simp [AssertExceptionT]

/-- C4 witness: with a hierarchy where type 0 is an ancestor of type 1, a
callable raising a type-1 exception satisfies the typed assertion for 0, and
a callable raising nothing produces the no-exception message. -/
theorem claim4_assert_exception_witness :
    (AssertExceptionT (fun a c => a == 0 && c == 1) 0 (some 1)).1 = true
    ∧ (AssertExceptionT (fun a c => a == 0 && c == 1) 0 none).2
        = some "no exception thrown" :=
  ⟨((claim4_assert_exception (fun a c => a == 0 && c == 1) 0 (some 1)).2.1).mpr
      ⟨1, rfl, Or.inr (by decide)⟩,
    (claim4_assert_exception (fun a c => a == 0 && c == 1) 0 none).2.2.2.1 rfl⟩

/-- C8: register with the storage operation succeeding appends the test to
the ordered sequence, returns a non-zero identifier, and leaves the failure
counter unchanged; with the storage operation raising, the error is captured,
the failure counter is incremented, and the sentinel identifier 0 is
returned. -/
theorem claim8_register_test (st : RegState) (name : String) (test timeout : Nat) :
    ((RegisterTest st name test timeout true).1.unit_tests
      = some (st.unit_tests.getD [] ++ [(name, test, timeout)]))
    ∧ (RegisterTest st name test timeout true).2 ≠ 0
    ∧ (RegisterTest st name test timeout true).1.failed_registrations
      = st.failed_registrations
    ∧ (RegisterTest st name test timeout false).1.failed_registrations
      = st.failed_registrations + 1
    ∧ (RegisterTest st name test timeout false).2 = 0
    ∧ (RegisterTest st name test timeout false).1.unit_tests = st.unit_tests := by
  cases st with
  | mk ut fr =>
    cases ut <;> simp [RegisterTest]

/-- C8 witness: the first registration into an empty registry. -/
theorem claim8_register_test_witness :
    (RegisterTest ⟨none, 0⟩ "group::test" 7 600 true).2 ≠ 0 :=
  (claim8_register_test ⟨none, 0⟩ "group::test" 7 600).2.1

/-- C9: FriendlyDuration displays the chosen unit's value in thousandths,
the displayed number is at least 1 whenever the duration is at least one
microsecond, and no coarser unit could have displayed a number of at least 1
(the coarsest qualifying unit is never skipped). -/
theorem claim9_friendly_duration (ns : Nat) :
    (FriendlyDuration ns).2 = displayedThousandths (FriendlyDuration ns).1 ns
    ∧ (1000 ≤ ns → 1000 ≤ (FriendlyDuration ns).2)
    ∧ (∀ u, coarser u (FriendlyDuration ns).1 = true →
        displayedThousandths u ns < 1000) := by
  unfold FriendlyDuration
  by_cases h1 : 1000000000 ≤ ns
  · simp only [if_pos h1]
    refine ⟨rfl, fun _ => ?_, fun u hu => ?_⟩
    · show 1000 ≤ ns / 1000000
      omega
    · cases u <;> simp [coarser] at hu
  · by_cases h2 : 1000000 ≤ ns
    · simp only [if_neg h1, if_pos h2]
      refine ⟨rfl, fun _ => ?_, fun u hu => ?_⟩
      · show 1000 ≤ ns / 1000
        omega
      · cases u <;> simp [coarser] at hu
        show ns / 1000000 < 1000
        omega
    · simp only [if_neg h1, if_neg h2]
      refine ⟨rfl, fun h => h, fun u hu => ?_⟩
      cases u <;> simp [coarser] at hu
      · show ns / 1000000 < 1000
        omega
      · show ns / 1000 < 1000
        omega

/-- C9 witness: a five-microsecond duration displays at least 1 in its
chosen unit. -/
theorem claim9_friendly_duration_witness : 1000 ≤ (FriendlyDuration 5000).2 :=
  (claim9_friendly_duration 5000).2.1 (by omega)

/-- A body-invocation event in a test's step carries that test's name. -/
theorem stepEvents_bodyInvoked_name (excl : Option (List String)) (s : TestSpec)
    (nm : String) (h : Event.bodyInvoked nm ∈ stepEvents excl s) : nm = s.name := by
  unfold stepEvents at h
  split at h
  · simp at h
  · simp at h
    exact h

/-- A duration event in a test's step carries that test's name. -/
theorem stepEvents_durationNotice_name (excl : Option (List String)) (s : TestSpec)
    (nm : String) (h : Event.durationNotice nm ∈ stepEvents excl s) : nm = s.name := by
  unfold stepEvents at h
  split at h
  · simp at h
  · simp at h
    exact h

/-- No single test's step contains the aggregate summary line. -/
theorem stepEvents_no_summary (excl : Option (List String)) (s : TestSpec) :
    Event.summaryNotice ∉ stepEvents excl s := by
  unfold stepEvents
  split <;> simp

/-- An event of the concatenated steps of a test list belongs to the step of
one of its tests. -/
theorem mem_join_stepEvents (excl : Option (List String)) (pre : List TestSpec)
    (ev : Event) (h : ev ∈ (List.map (stepEvents excl) pre).flatten) :
    ∃ s ∈ pre, ev ∈ stepEvents excl s := by
  rw [List.mem_flatten] at h
  obtain ⟨l, hl, hev⟩ := h
  obtain ⟨s, hs, rfl⟩ := List.mem_map.mp hl
  exact ⟨s, hs, hev⟩

/-- Running a prefix of tests the run continues past produces exactly the
concatenation of their steps, followed by the run of the remaining tests,
with Test_Failed still clear. -/
theorem runLoop_append_continues (excl : Option (List String)) :
    ∀ (pre ts : List TestSpec), (∀ s ∈ pre, continues excl s = true) →
      runLoop excl false (pre ++ ts)
        = ((List.map (stepEvents excl) pre).flatten ++ (runLoop excl false ts).1,
            (runLoop excl false ts).2) := by
  intro pre
  induction pre with
  | nil =>
    intro ts _
    simp
  | cons p ps ih =>
    intro ts h
    have hp : continues excl p = true := h p (List.mem_cons_self p ps)
    have hps : ∀ s ∈ ps, continues excl s = true :=
      fun s hs => h s (List.mem_cons_of_mem p hs)
    cases hex : isExcluded excl p.name with
    | true =>
      rw [List.cons_append]
      rw [show runLoop excl false (p :: (ps ++ ts))
          = (Event.excludedNotice p.name :: (runLoop excl false (ps ++ ts)).1,
              (runLoop excl false (ps ++ ts)).2) from by simp [runLoop, hex]]
      rw [ih ts hps]
      simp [stepEvents, hex]
    | false =>
      have hcont := hp
      unfold continues at hcont
      rw [hex] at hcont
      simp at hcont
      obtain ⟨hto, hsf⟩ := hcont
      rw [List.cons_append]
      rw [show runLoop excl false (p :: (ps ++ ts))
          = (Event.runningNotice p.name :: Event.bodyInvoked p.name ::
              Event.durationNotice p.name :: (runLoop excl false (ps ++ ts)).1,
              (runLoop excl false (ps ++ ts)).2) from by
        simp [runLoop, hex, hto, hsf]]
      rw [ih ts hps]
      simp [stepEvents, hex]

/-- main() on a non-empty test vector with no failed registrations prints
the total count and defers to the loop with Test_Failed clear. -/
theorem mainRun_cons (excl : Option (List String)) (t : TestSpec)
    (rest : List TestSpec) :
    mainRun (some (t :: rest)) excl 0
      = (Event.totalCount (t :: rest).length :: (runLoop excl false (t :: rest)).1,
          (runLoop excl false (t :: rest)).2) := by
  simp [mainRun]

/-- The previous lemma, phrased for a vector split around a chosen test. -/
theorem mainRun_eq_of_append (excl : Option (List String))
    (pre post : List TestSpec) (t : TestSpec) :
    mainRun (some (pre ++ t :: post)) excl 0
      = (Event.totalCount (pre ++ t :: post).length
          :: (runLoop excl false (pre ++ t :: post)).1,
          (runLoop excl false (pre ++ t :: post)).2) := by
  cases pre with
  | nil =>
    rw [List.nil_append]
    exact mainRun_cons excl t post
  | cons p ps =>
    rw [List.cons_append]
    exact mainRun_cons excl p (ps ++ t :: post)

/-- C1: when a worker signals in time but Test_Failed is set, the run stops
at once with exit code 1: the trace ends at that test's body invocation, so
no summary is printed, the failing test's duration is not printed, and no
test registered after it is executed. -/
theorem claim1_failure_stops_run (excl : Option (List String))
    (pre post : List TestSpec) (t : TestSpec)
    (hpre : ∀ s ∈ pre, continues excl s = true)
    (hex : isExcluded excl t.name = false)
    (hto : t.timesOut = false)
    (hsf : t.setsFailure = true) :
    (mainRun (some (pre ++ t :: post)) excl 0).2 = 1
    ∧ (mainRun (some (pre ++ t :: post)) excl 0).1
      = Event.totalCount (pre ++ t :: post).length
          :: ((List.map (stepEvents excl) pre).flatten
            ++ [Event.runningNotice t.name, Event.bodyInvoked t.name])
    ∧ Event.summaryNotice ∉ (mainRun (some (pre ++ t :: post)) excl 0).1
    ∧ (Event.durationNotice t.name ∈ (mainRun (some (pre ++ t :: post)) excl 0).1
        → ∃ s ∈ pre, s.name = t.name)
    ∧ (∀ nm, Event.bodyInvoked nm ∈ (mainRun (some (pre ++ t :: post)) excl 0).1
        → nm = t.name ∨ ∃ s ∈ pre, s.name = nm) := by
  have hrl : runLoop excl false (t :: post)
      = ([Event.runningNotice t.name, Event.bodyInvoked t.name], 1) := by
    simp [runLoop, hex, hto, hsf]
  have happ := runLoop_append_continues excl pre (t :: post) hpre
  rw [hrl] at happ
  have hmain := mainRun_eq_of_append excl pre post t
  rw [happ] at hmain
  refine ⟨by rw [hmain], by rw [hmain], ?_, ?_, ?_⟩
  · rw [hmain]
    intro hmem
    rcases List.mem_cons.mp hmem with h | h
    · exact Event.noConfusion h
    · rcases List.mem_append.mp h with h | h
      · obtain ⟨s, _, hin⟩ := mem_join_stepEvents excl pre _ h
        exact stepEvents_no_summary excl s hin
      · simp at h
  · rw [hmain]
    intro hmem
    rcases List.mem_cons.mp hmem with h | h
    · exact Event.noConfusion h
    · rcases List.mem_append.mp h with h | h
      · obtain ⟨s, hs, hin⟩ := mem_join_stepEvents excl pre _ h
        exact ⟨s, hs, (stepEvents_durationNotice_name excl s t.name hin).symm⟩
      · simp at h
  · intro nm
    rw [hmain]
    intro hmem
    rcases List.mem_cons.mp hmem with h | h
    · exact Event.noConfusion h
    · rcases List.mem_append.mp h with h | h
      · obtain ⟨s, hs, hin⟩ := mem_join_stepEvents excl pre _ h
        exact Or.inr ⟨s, hs, (stepEvents_bodyInvoked_name excl s nm hin).symm⟩
      · simp at h
        exact Or.inl h

/-- C1 witness: a single test that completes in time with Test_Failed set
makes the run exit with failure status. -/
theorem claim1_failure_stops_run_witness :
    (mainRun (some [⟨"g::t", 600, false, true⟩]) none 0).2 = 1 :=
  (claim1_failure_stops_run none [] [] ⟨"g::t", 600, false, true⟩
    (by simp) rfl rfl rfl).1

/-- C2: when a non-excluded test's worker has not signalled by the time the
controller's wait of the configured timeout expires, the run's trace ends at
the diagnostic naming the test and its timeout, the process exits with
failure status, and no test registered after it is executed or reports a
duration. -/
theorem claim2_timeout_terminates (excl : Option (List String))
    (pre post : List TestSpec) (t : TestSpec)
    (hpre : ∀ s ∈ pre, continues excl s = true)
    (hex : isExcluded excl t.name = false)
    (hto : t.timesOut = true) :
    (mainRun (some (pre ++ t :: post)) excl 0).2 = 1
    ∧ (mainRun (some (pre ++ t :: post)) excl 0).1
      = Event.totalCount (pre ++ t :: post).length
          :: ((List.map (stepEvents excl) pre).flatten
            ++ [Event.runningNotice t.name, Event.bodyInvoked t.name,
              Event.timeoutNotice t.name t.timeout])
    ∧ Event.timeoutNotice t.name t.timeout
        ∈ (mainRun (some (pre ++ t :: post)) excl 0).1
    ∧ (∀ nm, Event.bodyInvoked nm ∈ (mainRun (some (pre ++ t :: post)) excl 0).1
        → nm = t.name ∨ ∃ s ∈ pre, s.name = nm)
    ∧ (∀ nm, Event.durationNotice nm ∈ (mainRun (some (pre ++ t :: post)) excl 0).1
        → ∃ s ∈ pre, s.name = nm) := by
  have hrl : runLoop excl false (t :: post)
      = ([Event.runningNotice t.name, Event.bodyInvoked t.name,
          Event.timeoutNotice t.name t.timeout], 1) := by
    simp [runLoop, hex, hto]
  have happ := runLoop_append_continues excl pre (t :: post) hpre
  rw [hrl] at happ
  have hmain := mainRun_eq_of_append excl pre post t
  rw [happ] at hmain
  refine ⟨by rw [hmain], by rw [hmain], ?_, ?_, ?_⟩
  · rw [hmain]
    simp
  · intro nm
    rw [hmain]
    intro hmem
    rcases List.mem_cons.mp hmem with h | h
    · exact Event.noConfusion h
    · rcases List.mem_append.mp h with h | h
      · obtain ⟨s, hs, hin⟩ := mem_join_stepEvents excl pre _ h
        exact Or.inr ⟨s, hs, (stepEvents_bodyInvoked_name excl s nm hin).symm⟩
      · simp at h
        exact Or.inl h
  · intro nm
    rw [hmain]
    intro hmem
    rcases List.mem_cons.mp hmem with h | h
    · exact Event.noConfusion h
    · rcases List.mem_append.mp h with h | h
      · obtain ⟨s, hs, hin⟩ := mem_join_stepEvents excl pre _ h
        exact ⟨s, hs, (stepEvents_durationNotice_name excl s nm hin).symm⟩
      · simp at h

/-- C2 witness: a single test that times out ends the run with the timeout
diagnostic in the trace. -/
theorem claim2_timeout_terminates_witness :
    Event.timeoutNotice "g::t" 3
      ∈ (mainRun (some [⟨"g::t", 3, true, false⟩]) none 0).1 :=
  (claim2_timeout_terminates none [] [] ⟨"g::t", 3, true, false⟩
    (by simp) rfl rfl).2.2.1

/-- The loop never invokes the body of a test whose name is excluded,
whatever the current Test_Failed value. -/
theorem runLoop_excluded_no_body (excl : Option (List String)) (nm : String)
    (hnm : isExcluded excl nm = true) :
    ∀ (ts : List TestSpec) (tfail : Bool),
      Event.bodyInvoked nm ∉ (runLoop excl tfail ts).1 := by
  intro ts
  induction ts with
  | nil =>
    intro tfail
    simp [runLoop]
  | cons t rest ih =>
    intro tfail
    cases hex : isExcluded excl t.name with
    | true =>
      rw [show runLoop excl tfail (t :: rest)
          = (Event.excludedNotice t.name :: (runLoop excl tfail rest).1,
              (runLoop excl tfail rest).2) from by simp [runLoop, hex]]
      intro hmem
      rcases List.mem_cons.mp hmem with h | h
      · exact Event.noConfusion h
      · exact ih tfail h
    | false =>
      have hne : nm ≠ t.name := by
        intro he
        rw [he, hex] at hnm
        exact Bool.noConfusion hnm
      cases hto : t.timesOut with
      | true => simp [runLoop, hex, hto, hne]
      | false =>
        cases hfl : (tfail || t.setsFailure) with
        | true => simp [runLoop, hex, hto, hfl, hne]
        | false =>
          rw [show runLoop excl tfail (t :: rest)
              = (Event.runningNotice t.name :: Event.bodyInvoked t.name ::
                  Event.durationNotice t.name ::
                  (runLoop excl (tfail || t.setsFailure) rest).1,
                  (runLoop excl (tfail || t.setsFailure) rest).2) from by
            simp [runLoop, hex, hto, hfl]]
          intro hmem
          rcases List.mem_cons.mp hmem with h | h
          · exact Event.noConfusion h
          rcases List.mem_cons.mp h with h | h
          · exact hne (by injection h)
          rcases List.mem_cons.mp h with h | h
          · exact Event.noConfusion h
          · exact ih (tfail || t.setsFailure) h

/-- main() never invokes the body of a test whose name is excluded. -/
theorem mainRun_excluded_no_body (ut : Option (List TestSpec))
    (excl : Option (List String)) (fr : Nat) (nm : String)
    (hnm : isExcluded excl nm = true) :
    Event.bodyInvoked nm ∉ (mainRun ut excl fr).1 := by
  cases ut with
  | none => simp [mainRun]
  | some ts =>
    cases ts with
    | nil => simp [mainRun]
    | cons t rest =>
      by_cases hfr : fr ≠ 0
      · simp [mainRun, hfr]
      · rw [show mainRun (some (t :: rest)) excl fr
            = (Event.totalCount (t :: rest).length
                :: (runLoop excl false (t :: rest)).1,
                (runLoop excl false (t :: rest)).2) from by simp [mainRun, hfr]]
        intro hmem
        rcases List.mem_cons.mp hmem with h | h
        · exact Event.noConfusion h
        · exact runLoop_excluded_no_body excl nm hnm (t :: rest) false h

/-- Removing an excluded test from anywhere in the list never changes the
loop's exit code. -/
theorem runLoop_skip_excluded_code (excl : Option (List String)) (t : TestSpec)
    (hex : isExcluded excl t.name = true) :
    ∀ (pre post : List TestSpec) (tfail : Bool),
      (runLoop excl tfail (pre ++ t :: post)).2
        = (runLoop excl tfail (pre ++ post)).2 := by
  intro pre
  induction pre with
  | nil =>
    intro post tfail
    simp [runLoop, hex]
  | cons p ps ih =>
    intro post tfail
    cases hpex : isExcluded excl p.name with
    | true => simp [runLoop, hpex, ih]
    | false =>
      cases hto : p.timesOut with
      | true => simp [runLoop, hpex, hto]
      | false =>
        cases hfl : (tfail || p.setsFailure) with
        | true => simp [runLoop, hpex, hto, hfl]
        | false => simp [runLoop, hpex, hto, hfl, ih]

/-- The exclusion scan succeeds exactly on exact string membership. -/
theorem scanExclusions_iff (l : List String) (nm : String) :
    scanExclusions l nm = true ↔ nm ∈ l := by
  induction l with
  | nil => simp [scanExclusions]
  | cons e rest ih =>
    cases h : (e == nm) with
    | true =>
      have he : e = nm := by simpa using h
      simp [scanExclusions, h, he]
    | false =>
      have he : ¬(e = nm) := by simpa using h
      rw [show scanExclusions (e :: rest) nm = scanExclusions rest nm from by
        simp [scanExclusions, h]]
      rw [ih]
      constructor
      · intro hs
        exact List.mem_cons_of_mem e hs
      · intro hm
        rcases List.mem_cons.mp hm with hm' | hm'
        · exact absurd hm'.symm he
        · exact hm'

/-- C6: a registered test whose qualified name is in the exclusion set
(membership being exact, case-sensitive string equality) is skipped: its body
is never invoked anywhere in the run, its exclusion notice is printed when
the run reaches it, and its presence never changes the run's exit code. -/
theorem claim6_excluded_tests (excl : Option (List String))
    (pre post : List TestSpec) (t : TestSpec) (fr : Nat)
    (hex : isExcluded excl t.name = true) :
    (∀ nm, isExcluded excl nm = true →
      Event.bodyInvoked nm ∉ (mainRun (some (pre ++ t :: post)) excl fr).1)
    ∧ ((∀ s ∈ pre, continues excl s = true) → fr = 0 →
      Event.excludedNotice t.name ∈ (mainRun (some (pre ++ t :: post)) excl fr).1)
    ∧ (∀ tfail, (runLoop excl tfail (pre ++ t :: post)).2
        = (runLoop excl tfail (pre ++ post)).2)
    ∧ (∀ l nm, isExcluded (some l) nm = true ↔ nm ∈ l) := by
  refine ⟨?_, ?_, ?_, ?_⟩
  · intro nm hnm
    exact mainRun_excluded_no_body (some (pre ++ t :: post)) excl fr nm hnm
  · intro hpre hfr
    subst hfr
    rw [mainRun_eq_of_append]
    rw [runLoop_append_continues excl pre (t :: post) hpre]
    rw [show runLoop excl false (t :: post)
        = (Event.excludedNotice t.name :: (runLoop excl false post).1,
            (runLoop excl false post).2) from by simp [runLoop, hex]]
    simp
  · intro tfail
    exact runLoop_skip_excluded_code excl t hex pre post tfail
  · intro l nm
    exact scanExclusions_iff l nm

/-- C6 witness: a run whose single test is excluded prints the exclusion
notice. -/
theorem claim6_excluded_tests_witness :
    Event.excludedNotice "g::t"
      ∈ (mainRun (some [⟨"g::t", 600, false, false⟩]) (some ["g::t"]) 0).1 :=
  (claim6_excluded_tests (some ["g::t"]) [] [] ⟨"g::t", 600, false, false⟩ 0
    (by decide)).2.1 (by simp) rfl

/-- C7: with no registered tests (null or empty vector) or a non-zero count
of failed registrations, main() prints a diagnostic and exits with failure
status, and no test body is ever invoked. -/
theorem claim7_preconditions (ut : Option (List TestSpec))
    (excl : Option (List String)) (fr : Nat)
    (h : ut = none ∨ ut = some [] ∨ fr ≠ 0) :
    (mainRun ut excl fr).2 = 1
    ∧ (∀ nm, Event.bodyInvoked nm ∉ (mainRun ut excl fr).1)
    ∧ (Event.noTestsError ∈ (mainRun ut excl fr).1
        ∨ Event.regFailError fr ∈ (mainRun ut excl fr).1) := by
  cases ut with
  | none => simp [mainRun]
  | some ts =>
    cases ts with
    | nil => simp [mainRun]
    | cons t rest =>
      have hfr : fr ≠ 0 := by
        rcases h with h | h | h
        · exact Option.noConfusion h
        · rw [Option.some_inj] at h
          exact List.noConfusion h
        · exact h
      simp [mainRun, hfr]

/-- C7 witness: a null test vector fails before running anything. -/
theorem claim7_preconditions_witness : (mainRun none none 5).2 = 1 :=
  (claim7_preconditions none none 5 (Or.inl rfl)).1

end STF
